import Mathlib

/-
Verification of the typing-statistics engine of `src/src/App.tsx` (the
`TypingSpeedApp` React component).

The embedding below translates the engine's pure logic into Lean:

* JS numbers are modelled as exact rationals (`ℚ`), except where the source
  takes a square root (`Math.sqrt` in the consistency computation), which is
  modelled by `Real.sqrt` over `ℝ`.
* JS strings are modelled as `List Char`.
* The React component state (the `useState` hooks the engine reads/writes) is
  modelled as the structure `AppState`, and the event handlers
  (`handleInputChange`, `resetTest`) as pure transition functions on it; each
  `setX(v)` call in the source becomes the field update `x := v`.
* The `setInterval`/`clearInterval` tick source is modelled by the boolean
  field `timerRunning`.

Note on the source file: lines 105-112 of `App.tsx` are a stray duplicate of
the head of `handleInputChange` (lines 192-199) accidentally spliced into the
middle of `calculateStats`; the evident intended body of `calculateStats` is
the scoring loop (lines 98-104) together with the statistics computation and
return (lines 114-140), and that is what `calculateStats` below embeds.  The
complete `handleInputChange` at lines 192-233 is embedded as written.
-/

namespace Typer

/-- The `TestState` union type (line 27 of App.tsx). -/
inductive TestState where
  | idle
  | active
  | completed
  | paused
deriving DecidableEq

/-- The `Difficulty` union type (line 28 of App.tsx). -/
inductive Difficulty where
  | easy
  | medium
  | hard
  | custom
deriving DecidableEq

/-- The `TestMode` union type (line 29 of App.tsx). -/
inductive TestMode where
  | time
  | words
  | quote
deriving DecidableEq

/-- An entry of `wpmHistory` (interface `WpmHistory`, lines 22-25). -/
structure WpmEntry where
  time : ℤ
  wpm : ℤ
deriving DecidableEq

/-- The `TypingStats` interface (lines 5-14).  Fields whose source values are
always integers (`Math.round` / counters) are typed `ℤ`/`ℕ`; the rest are
exact rationals. -/
structure TypingStats where
  wpm : ℤ
  rawWpm : ℤ
  accuracy : ℚ
  correctChars : ℕ
  incorrectChars : ℕ
  totalChars : ℕ
  timeElapsed : ℚ
  consistency : ℤ
deriving DecidableEq

/-- The `TestResult` interface (lines 16-20): `TypingStats` plus timestamp,
difficulty and text length.  The `Date` timestamp is modelled as a rational
millisecond count. -/
structure TestResult extends TypingStats where
  timestamp : ℚ
  difficulty : Difficulty
  textLength : ℕ
deriving DecidableEq

/-- JavaScript `Math.round` on an exact rational: rounds to the nearest
integer, with halves rounding up (toward +∞). -/
def jsRound (q : ℚ) : ℤ := ⌊q + 1 / 2⌋

/-- JavaScript `Math.round` applied to a real value (used only downstream of
`Math.sqrt` in the consistency computation). -/
noncomputable def jsRoundR (x : ℝ) : ℤ := ⌊x + 1 / 2⌋

/-- The loop condition of the character-scoring loop of `calculateStats`
(line 99): position `i` of `input` is scored correct iff `i < text.length`
and `input[i] === text[i]`. -/
def scoredCorrect (input text : List Char) (i : ℕ) : Bool :=
  decide (i < text.length ∧ input[i]? = text[i]?)

/-- The `correctChars` counter of the scoring loop (lines 98-104): the number
of indices `i` of `input` with `i < text.length && input[i] === text[i]`. -/
def countCorrectChars (input text : List Char) : ℕ :=
  (List.range input.length).countP (scoredCorrect input text)

/-- The `incorrectChars` counter of the scoring loop (lines 98-104): every
index of `input` not scored correct is scored incorrect. -/
def countIncorrectChars (input text : List Char) : ℕ :=
  (List.range input.length).countP (fun i => ! scoredCorrect input text i)

/-- The consistency computation of `calculateStats` (lines 121-129): with at
least two WPM samples, `100 - 2 * stdDev` clamped to `[0, 100]`, where
`stdDev` is the square root of the population variance of the sampled WPM
values (the `reduce` folds of lines 125-126); with fewer than two samples,
`100`. -/
noncomputable def consistencyScore (wpmHist : List WpmEntry) : ℝ :=
  if 1 < wpmHist.length then
    let wpmValues : List ℝ := wpmHist.map fun h => (h.wpm : ℝ)
    let mean : ℝ := wpmValues.foldl (fun a b => a + b) 0 / wpmValues.length
    let variance : ℝ := wpmValues.foldl (fun a b => a + (b - mean) ^ 2) 0 / wpmValues.length
    let stdDev : ℝ := Real.sqrt variance
    max 0 (min 100 (100 - stdDev * 2))
  else 100

/-- The `calculateStats` function (lines 93-104 and 114-141 of App.tsx; see
the header comment on the stray duplicated fragment at lines 105-112).
Arguments are `(input, text, timeElapsed, wpmHist)` as in the source. -/
noncomputable def calculateStats (input text : List Char) (timeElapsed : ℚ)
    (wpmHist : List WpmEntry) : TypingStats :=
  let totalChars : ℕ := input.length
  let correctChars : ℕ := countCorrectChars input text
  let incorrectChars : ℕ := countIncorrectChars input text
  let accuracy : ℚ := if 0 < totalChars then ((correctChars : ℚ) / totalChars) * 100 else 0
  let wordsTyped : ℚ := (totalChars : ℚ) / 5
  let timeInMinutes : ℚ := timeElapsed / 60
  let grossWpm : ℤ := if 0 < timeInMinutes then jsRound (wordsTyped / timeInMinutes) else 0
  let errorsPerMinute : ℚ :=
    if 0 < timeInMinutes then (incorrectChars : ℚ) / timeInMinutes else 0
  let netWpm : ℤ := max 0 (jsRound ((grossWpm : ℚ) - errorsPerMinute))
  { wpm := netWpm
    rawWpm := grossWpm
    accuracy := (jsRound (accuracy * 100) : ℚ) / 100
    correctChars := correctChars
    incorrectChars := incorrectChars
    totalChars := totalChars
    timeElapsed := timeElapsed
    consistency := jsRoundR (consistencyScore wpmHist) }

/-- The component state read and written by the engine's event handlers: the
`useState` hooks of lines 56-80 of App.tsx (UI-only hooks such as
`showSettings` are untouched by the embedded handlers and omitted), plus
`timerRunning` modelling whether the `setInterval` tick source of `timerRef`
is live. -/
structure AppState where
  testText : List Char
  userInput : List Char
  testState : TestState
  difficulty : Difficulty
  testMode : TestMode
  targetTime : ℚ
  targetWords : ℕ
  startTime : ℚ
  currentTime : ℚ
  wpmHistory : List WpmEntry
  stats : TypingStats
  testResults : List TestResult
  currentCharIndex : ℕ
  capsLockWarning : Bool
  timerRunning : Bool

/-- The initial `stats` value (lines 67-76): all fields zero. -/
def initialStats : TypingStats :=
  { wpm := 0, rawWpm := 0, accuracy := 0, correctChars := 0, incorrectChars := 0,
    totalChars := 0, timeElapsed := 0, consistency := 0 }

/-- The completion condition of `handleInputChange` (lines 212-215):
quote mode compares typed length with text length, timed mode compares
elapsed seconds with the target, word-count mode counts the tokens of
`value.split(' ')` (split on the single space character, so consecutive
spaces yield empty tokens). -/
def isCompleted (mode : TestMode) (value testText : List Char)
    (timeElapsed targetTime : ℚ) (targetWords : ℕ) : Bool :=
  (decide (mode = TestMode.quote) && decide (value.length = testText.length))
  || (decide (mode = TestMode.time) && decide (targetTime ≤ timeElapsed))
  || (decide (mode = TestMode.words) && decide (targetWords ≤ (value.splitOn ' ').length))

/-- The `TestResult` built on completion (lines 224-229): the current stats
(recomputed from the same arguments `calculateStats` received at line 208)
plus timestamp, difficulty, and text length. -/
noncomputable def buildResult (nowMs : ℚ) (st : AppState) (value : List Char) :
    TestResult :=
  { toTypingStats :=
      calculateStats value st.testText ((st.currentTime - st.startTime) / 1000) st.wpmHistory
    timestamp := nowMs
    difficulty := st.difficulty
    textLength := st.testText.length }

/-- The `resetTest` handler (lines 179-190): back to idle, clear input, char
index, current time, wpm history and the caps-lock warning, and stop the
timer.  (It does not touch `stats`, `startTime`, `testText` or
`testResults`.) -/
def resetTest (st : AppState) : AppState :=
  { st with
    testState := TestState.idle
    userInput := []
    currentCharIndex := 0
    currentTime := 0
    wpmHistory := []
    capsLockWarning := false
    timerRunning := false }

/-- The `handleInputChange` handler (lines 192-233).  `nowMs` models the
wall-clock `new Date()` read at line 226; `value` is the full current input
buffer (`e.target.value`).  Note that, as in the source, the stats (line 208)
and the completion result are computed against the pre-update `wpmHistory`
(React state reads within a render are stale), while the appended sample
(lines 202-206) lands in the next state's `wpmHistory`. -/
noncomputable def handleInputChange (nowMs : ℚ) (st : AppState) (value : List Char) :
    AppState :=
  if st.testState ≠ TestState.active then st
  else
    let timeElapsed : ℚ := (st.currentTime - st.startTime) / 1000
    let wpmHistoryNext : List WpmEntry :=
      if 0 < timeElapsed ∧ ⌊timeElapsed⌋ % 2 = 0 ∧
          st.wpmHistory.getLast?.map WpmEntry.time ≠ some ⌊timeElapsed⌋ then
        st.wpmHistory ++
          [{ time := ⌊timeElapsed⌋
             wpm := jsRound (((value.length : ℚ) / 5) / (timeElapsed / 60)) }]
      else st.wpmHistory
    let currentStats : TypingStats := calculateStats value st.testText timeElapsed st.wpmHistory
    let stepped : AppState :=
      { st with
        userInput := value
        currentCharIndex := value.length
        wpmHistory := wpmHistoryNext
        stats := currentStats }
    if isCompleted st.testMode value st.testText timeElapsed st.targetTime st.targetWords then
      { stepped with
        testState := TestState.completed
        timerRunning := false
        testResults := (buildResult nowMs st value :: st.testResults).take 20 }
    else stepped

/-- Population mean, written from the spec's words ("compute the population
mean ... of the sampled WPM values") for comparison with the code's
`reduce`-based computation. -/
noncomputable def popMean (l : List ℝ) : ℝ := l.sum / l.length

/-- Population standard deviation about the population mean, written from the
spec's words for comparison with the code's computation. -/
noncomputable def popStdDev (l : List ℝ) : ℝ :=
  Real.sqrt ((l.map fun b => (b - popMean l) ^ 2).sum / l.length)

/-- A concrete session state used by witnesses and counterexamples: idle,
quote mode, medium difficulty, nothing typed yet. -/
def sampleState : AppState :=
  { testText := ['a', 'b']
    userInput := []
    testState := TestState.idle
    difficulty := Difficulty.medium
    testMode := TestMode.quote
    targetTime := 60
    targetWords := 50
    startTime := 0
    currentTime := 0
    wpmHistory := []
    stats := initialStats
    testResults := []
    currentCharIndex := 0
    capsLockWarning := false
    timerRunning := false }

/-- A concrete active session state. -/
def activeState : AppState := { sampleState with testState := TestState.active }

/-- A concrete active quote-mode state whose one-character text is about to be
completed. -/
def completedInputState : AppState :=
  { sampleState with testState := TestState.active, testText := ['a'], timerRunning := true }

/-- A concrete active timed-mode state 0.5 seconds into the session (elapsed
time is `(500 - 0) / 1000 = 1/2` seconds), with an empty sample history. -/
def earlyState : AppState :=
  { sampleState with
    testState := TestState.active
    testMode := TestMode.time
    targetTime := 60
    startTime := 0
    currentTime := 500
    timerRunning := true }

/-- A concrete active state carrying a non-zero last computed stats
snapshot. -/
def staleStatsState : AppState :=
  { sampleState with
    testState := TestState.active
    stats := { initialStats with wpm := 42 } }

/-! ### Helper lemmas about the character-scoring loop -/

/-- Every index of `input` is counted exactly once, either as correct or as
incorrect. -/
lemma countChars_add (input text : List Char) :
    countCorrectChars input text + countIncorrectChars input text = input.length := by
  have h := List.length_eq_countP_add_countP (scoredCorrect input text) (List.range input.length)
  rw [List.length_range] at h
  rw [countCorrectChars, countIncorrectChars]
  have hq : (fun i => ! scoredCorrect input text i)
      = (fun i => decide ¬(scoredCorrect input text i = true)) := by
    funext i
    simp
  rw [hq]
  exact h.symm

lemma countCorrectChars_le (input text : List Char) :
    countCorrectChars input text ≤ input.length := by
  have := List.countP_le_length (l := List.range input.length) (scoredCorrect input text)
  rwa [List.length_range] at this

lemma countCorrectChars_cons (c t : Char) (is ts : List Char) :
    countCorrectChars (c :: is) (t :: ts)
      = (if c = t then 1 else 0) + countCorrectChars is ts := by
  simp only [countCorrectChars, List.length_cons, List.range_succ_eq_map, List.countP_cons,
    List.countP_map]
  have h0 : scoredCorrect (c :: is) (t :: ts) 0 = decide (c = t) := by
    simp [scoredCorrect]
  have hs : List.countP (scoredCorrect (c :: is) (t :: ts) ∘ Nat.succ) (List.range is.length)
      = List.countP (scoredCorrect is ts) (List.range is.length) := by
    apply List.countP_congr
    intro i _
    simp [scoredCorrect, Function.comp, Nat.succ_lt_succ_iff]
  rw [h0, hs]
  rcases eq_or_ne c t with h | h <;> simp [h, Nat.add_comm]

lemma countCorrectChars_self (l : List Char) : countCorrectChars l l = l.length := by
  induction l with
  | nil => rfl
  | cons a l ih => rw [countCorrectChars_cons, ih, if_pos rfl, List.length_cons, Nat.add_comm]

/-! ### Helper lemmas about JS rounding -/

lemma jsRound_nonneg {q : ℚ} (h : 0 ≤ q) : 0 ≤ jsRound q := by
  rw [jsRound]
  exact Int.le_floor.mpr (by push_cast; linarith)

lemma jsRound_le {q : ℚ} {n : ℤ} (h : q + 1 / 2 < (n : ℚ) + 1) : jsRound q ≤ n := by
  rw [jsRound]
  exact Int.lt_add_one_iff.mp (Int.floor_lt.mpr (by push_cast at h ⊢; linarith))

lemma jsRoundR_nonneg {x : ℝ} (h : 0 ≤ x) : 0 ≤ jsRoundR x := by
  rw [jsRoundR]
  exact Int.le_floor.mpr (by push_cast; linarith)

lemma jsRoundR_le {x : ℝ} {n : ℤ} (h : x + 1 / 2 < (n : ℝ) + 1) : jsRoundR x ≤ n := by
  rw [jsRoundR]
  exact Int.lt_add_one_iff.mp (Int.floor_lt.mpr (by push_cast at h ⊢; linarith))

/-! ### Helper lemmas about the consistency score -/

lemma consistencyScore_nonneg (hist : List WpmEntry) : 0 ≤ consistencyScore hist := by
  rw [consistencyScore]
  split
  · exact le_max_left 0 _
  · norm_num

lemma consistencyScore_le (hist : List WpmEntry) : consistencyScore hist ≤ 100 := by
  rw [consistencyScore]
  split
  · exact max_le (by norm_num) (min_le_left _ _)
  · norm_num

/-! ### C1 -/

/-- C1: for every typedText, sourceText, elapsedSeconds and sample list,
`calculateStats` scores character `i` of the typed text as correct exactly
when `i < text.length` and `input[i] = text[i]` and as incorrect otherwise,
reports `totalChars = input.length`, and reports accuracy as
`correct / total * 100` rounded to two decimal places (0 when the typed text
is empty); in particular for source "abc", typed "abx", 60 elapsed seconds it
reports 2 correct, 1 incorrect, accuracy 66.67. -/
theorem claim_C1 : ∀ (input text : List Char) (t : ℚ) (hist : List WpmEntry),
    ((calculateStats input text t hist).correctChars
        = (List.range input.length).countP (fun i => decide (i < text.length ∧ input[i]? = text[i]?))
      ∧ (calculateStats input text t hist).incorrectChars
        = (List.range input.length).countP (fun i => ! decide (i < text.length ∧ input[i]? = text[i]?))
      ∧ (calculateStats input text t hist).totalChars = input.length
      ∧ (calculateStats input text t hist).accuracy
        = (if input.length = 0 then 0
           else (jsRound ((countCorrectChars input text : ℚ) / (input.length : ℚ) * 100 * 100) : ℚ) / 100))
    ∧ (calculateStats ['a', 'b', 'x'] ['a', 'b', 'c'] 60 []).correctChars = 2
    ∧ (calculateStats ['a', 'b', 'x'] ['a', 'b', 'c'] 60 []).incorrectChars = 1
    ∧ (calculateStats ['a', 'b', 'x'] ['a', 'b', 'c'] 60 []).accuracy = 6667 / 100 := by
  have hc : countCorrectChars ['a', 'b', 'x'] ['a', 'b', 'c'] = 2 := by decide
  refine fun input text t hist => ⟨⟨rfl, rfl, rfl, ?_⟩, ?_, ?_, ?_⟩
  · by_cases h : input.length = 0
    · simp [calculateStats, h, jsRound]
      norm_num
    · simp [calculateStats, h, Nat.pos_of_ne_zero h]
  · simp [calculateStats, hc]
  · simp only [calculateStats]
    decide
  · simp [calculateStats, hc]
    norm_num [jsRound]

/-! ### Field-shape lemmas for `calculateStats` -/

lemma calculateStats_accuracy (input text : List Char) (t : ℚ) (hist : List WpmEntry) :
    (calculateStats input text t hist).accuracy
      = (jsRound ((if 0 < input.length then
            ((countCorrectChars input text : ℚ) / (input.length : ℚ)) * 100 else 0) * 100) : ℚ)
          / 100 := rfl

lemma calculateStats_consistency (input text : List Char) (t : ℚ) (hist : List WpmEntry) :
    (calculateStats input text t hist).consistency = jsRoundR (consistencyScore hist) := rfl

/-- The raw accuracy ratio computed by `calculateStats` lies in `[0, 100]`. -/
lemma accuracyRatio_mem (input text : List Char) :
    (0 : ℚ) ≤ (if 0 < input.length then
        ((countCorrectChars input text : ℚ) / (input.length : ℚ)) * 100 else 0)
    ∧ (if 0 < input.length then
        ((countCorrectChars input text : ℚ) / (input.length : ℚ)) * 100 else 0) ≤ 100 := by
  constructor
  · split
    · positivity
    · norm_num
  · split
    · have hle : (countCorrectChars input text : ℚ) ≤ (input.length : ℚ) := by
        exact_mod_cast countCorrectChars_le input text
      have h1 : (countCorrectChars input text : ℚ) / (input.length : ℚ) ≤ 1 :=
        div_le_one_of_le₀ hle (by positivity)
      linarith
    · norm_num

/-! ### C3 -/

/-- C3: for every input, the stats snapshot returned by `calculateStats`
satisfies `correctChars + incorrectChars = totalChars`, has accuracy in
`[0, 100]` and consistency in `[0, 100]`. -/
theorem claim_C3 : ∀ (input text : List Char) (t : ℚ) (hist : List WpmEntry),
    (calculateStats input text t hist).correctChars
        + (calculateStats input text t hist).incorrectChars
      = (calculateStats input text t hist).totalChars
    ∧ 0 ≤ (calculateStats input text t hist).accuracy
    ∧ (calculateStats input text t hist).accuracy ≤ 100
    ∧ 0 ≤ (calculateStats input text t hist).consistency
    ∧ (calculateStats input text t hist).consistency ≤ 100 := by
  intro input text t hist
  obtain ⟨ha0, ha100⟩ := accuracyRatio_mem input text
  refine ⟨?_, ?_, ?_, ?_, ?_⟩
  · simpa [calculateStats] using countChars_add input text
  · rw [calculateStats_accuracy]
    have := jsRound_nonneg (q := (if 0 < input.length then
        ((countCorrectChars input text : ℚ) / (input.length : ℚ)) * 100 else 0) * 100)
      (by nlinarith)
    positivity
  · rw [calculateStats_accuracy]
    have hr : jsRound ((if 0 < input.length then
        ((countCorrectChars input text : ℚ) / (input.length : ℚ)) * 100 else 0) * 100)
        ≤ (10000 : ℤ) := jsRound_le (by push_cast; nlinarith)
    rw [div_le_iff₀ (by norm_num : (0 : ℚ) < 100)]
    exact_mod_cast le_trans (by exact_mod_cast hr) (by norm_num)
  · rw [calculateStats_consistency]
    exact jsRoundR_nonneg (consistencyScore_nonneg hist)
  · rw [calculateStats_consistency]
    exact jsRoundR_le (by have := consistencyScore_le hist; push_cast; linarith)

/-! ### C4 -/

/-- C4: with positive elapsed time, `calculateStats` reports
`rawWpm = round((input.length / 5) / (t / 60))` and
`wpm = max 0 (round(rawWpm - incorrectChars / (t / 60)))`; with zero elapsed
time both are 0; and a 25-character input over 30 seconds gives 5 words typed
and `rawWpm = 10`. -/
theorem claim_C4 : ∀ (input text : List Char) (t : ℚ) (hist : List WpmEntry),
    (0 < t →
      (calculateStats input text t hist).rawWpm
          = jsRound (((input.length : ℚ) / 5) / (t / 60))
      ∧ (calculateStats input text t hist).wpm
          = max 0 (jsRound (((calculateStats input text t hist).rawWpm : ℚ)
              - (countIncorrectChars input text : ℚ) / (t / 60))))
    ∧ (t = 0 →
      (calculateStats input text t hist).rawWpm = 0
      ∧ (calculateStats input text t hist).wpm = 0)
    ∧ ((List.replicate 25 'a').length : ℚ) / 5 = 5
    ∧ (calculateStats (List.replicate 25 'a') [] 30 hist).rawWpm = 10 := by
  intro input text t hist
  refine ⟨fun ht => ?_, fun ht => ?_, by norm_num, ?_⟩
  · have h60 : 0 < t / 60 := by linarith
    constructor
    · simp [calculateStats, h60]
    · simp [calculateStats, h60]
  · subst ht
    norm_num [calculateStats, jsRound]
  · have h30 : (0 : ℚ) < 30 / 60 := by norm_num
    simp [calculateStats, h30]
    norm_num [jsRound]

/-- Witness for C4 at a concrete input with positive elapsed time. -/
theorem claim_C4_witness :
    (0 : ℚ) < 60
    ∧ ((calculateStats ['h', 'i'] [] 60 []).rawWpm
          = jsRound ((((['h', 'i'] : List Char).length : ℚ) / 5) / (60 / 60))
      ∧ (calculateStats ['h', 'i'] [] 60 []).wpm
          = max 0 (jsRound (((calculateStats ['h', 'i'] [] 60 []).rawWpm : ℚ)
              - (countIncorrectChars ['h', 'i'] [] : ℚ) / (60 / 60)))) :=
  ⟨by norm_num, (claim_C4 ['h', 'i'] [] 60 []).1 (by norm_num)⟩

/-! ### C5 -/

lemma foldl_add_id (l : List ℝ) :
    ∀ a : ℝ, l.foldl (fun acc b => acc + b) a = a + l.sum := by
  induction l with
  | nil => intro a; simp
  | cons x xs ih =>
    intro a
    simp only [List.foldl_cons, List.sum_cons, ih]
    ring

lemma foldl_add_sq (m : ℝ) (l : List ℝ) :
    ∀ a : ℝ, l.foldl (fun acc b => acc + (b - m) ^ 2) a
      = a + (l.map fun b => (b - m) ^ 2).sum := by
  induction l with
  | nil => intro a; simp
  | cons x xs ih =>
    intro a
    simp only [List.foldl_cons, List.map_cons, List.sum_cons, ih]
    ring

lemma consistencyScore_of_two_le {hist : List WpmEntry} (h : 2 ≤ hist.length) :
    consistencyScore hist
      = max 0 (min 100 (100 - popStdDev (hist.map fun h => (h.wpm : ℝ)) * 2)) := by
  have h1 : 1 < hist.length := by omega
  rw [consistencyScore, if_pos h1]
  dsimp only
  simp only [foldl_add_id, foldl_add_sq, zero_add]
  simp only [popStdDev, popMean]

/-- C5: with at least two samples, the consistency reported by
`calculateStats` is `100 - 2 * stdDev` clamped to `[0, 100]` and rounded,
where `stdDev` is the population standard deviation of the sampled WPM values
about their population mean; with fewer than two samples it is 100. -/
theorem claim_C5 : ∀ (input text : List Char) (t : ℚ) (hist : List WpmEntry),
    (2 ≤ hist.length →
      (calculateStats input text t hist).consistency
        = jsRoundR (max 0 (min 100 (100 - 2 * popStdDev (hist.map fun h => (h.wpm : ℝ))))))
    ∧ (hist.length < 2 → (calculateStats input text t hist).consistency = 100) := by
  intro input text t hist
  constructor
  · intro h
    rw [calculateStats_consistency, consistencyScore_of_two_le h,
      mul_comm (popStdDev (hist.map fun h => (h.wpm : ℝ))) 2]
  · intro h
    rw [calculateStats_consistency, consistencyScore, if_neg (by omega)]
    norm_num [jsRoundR]

/-- Witness for C5 at a two-sample history. -/
theorem claim_C5_witness :
    2 ≤ ([⟨2, 10⟩, ⟨4, 10⟩] : List WpmEntry).length
    ∧ (calculateStats [] [] 0 [⟨2, 10⟩, ⟨4, 10⟩]).consistency
      = jsRoundR (max 0 (min 100
          (100 - 2 * popStdDev (([⟨2, 10⟩, ⟨4, 10⟩] : List WpmEntry).map fun h => (h.wpm : ℝ))))) :=
  ⟨by decide, (claim_C5 [] [] 0 [⟨2, 10⟩, ⟨4, 10⟩]).1 (by decide)⟩

/-! ### C8 -/

/-- Counterexample to C8 as stated: with a 20000-character source, a typed
text matching on 19999 of its 20000 characters reaches exactly 99.995% raw
accuracy, which rounds (to two decimal places, halves up as in
`Math.round`) to 100.00 — so `accuracyPercent = 100` even though not every
scored character matches (position 0 differs). -/
theorem claim_C8_cex :
    (calculateStats ('b' :: List.replicate 19999 'a') (List.replicate 20000 'a') 60 []).accuracy
        = 100
    ∧ ¬ (∀ i, i < ('b' :: List.replicate 19999 'a').length →
          i < (List.replicate 20000 'a').length
          ∧ ('b' :: List.replicate 19999 'a')[i]? = (List.replicate 20000 'a')[i]?) := by
  have hrep : List.replicate 20000 'a' = 'a' :: List.replicate 19999 'a' := rfl
  have hc : countCorrectChars ('b' :: List.replicate 19999 'a') (List.replicate 20000 'a')
      = 19999 := by
    rw [hrep, countCorrectChars_cons, countCorrectChars_self, if_neg (by decide),
      List.length_replicate]
  constructor
  · rw [calculateStats_accuracy, hc]
    have hlen : ('b' :: List.replicate 19999 'a').length = 20000 := by
      rw [List.length_cons, List.length_replicate]
    rw [hlen, if_pos (by norm_num)]
    norm_num [jsRound]
  · intro hall
    have h0 := (hall 0 (by simp only [List.length_cons]; omega)).2
    rw [hrep, List.getElem?_cons_zero, List.getElem?_cons_zero] at h0
    exact absurd (Option.some.inj h0) (by decide)

/-- C8 as amended: `accuracyPercent = 100` exactly when the typed text is
non-empty and at least a 19999/20000 fraction of its characters is scored
correct (every character matching is the special case
`countCorrectChars = input.length`); for empty typed text the accuracy is 0,
not 100. -/
theorem claim_C8_amended : ∀ (input text : List Char) (t : ℚ) (hist : List WpmEntry),
    ((calculateStats input text t hist).accuracy = 100
      ↔ input ≠ [] ∧ 19999 * input.length ≤ 20000 * countCorrectChars input text)
    ∧ (input = [] → (calculateStats input text t hist).accuracy = 0) := by
  intro input text t hist
  rcases eq_or_ne input ([] : List Char) with h | h
  · subst h
    have hempty : (calculateStats ([] : List Char) text t hist).accuracy = 0 := by
      rw [calculateStats_accuracy]
      norm_num [jsRound]
    rw [hempty]
    exact ⟨by norm_num, fun _ => rfl⟩
  · have hlen : 0 < input.length := List.length_pos.mpr h
    have hL : (0 : ℚ) < (input.length : ℚ) := by exact_mod_cast hlen
    have hup : (countCorrectChars input text : ℚ) ≤ (input.length : ℚ) := by
      exact_mod_cast countCorrectChars_le input text
    constructor
    · rw [calculateStats_accuracy, if_pos hlen]
      have hq : (countCorrectChars input text : ℚ) / (input.length : ℚ) * 100 * 100
          = ((countCorrectChars input text : ℚ) * 10000) / (input.length : ℚ) := by
        ring
      rw [hq, div_eq_iff (by norm_num : (100 : ℚ) ≠ 0),
        show ((100 : ℚ) * 100) = ((10000 : ℤ) : ℚ) by norm_num, Int.cast_inj, jsRound,
        Int.floor_eq_iff]
      push_cast
      constructor
      · rintro ⟨h1, -⟩
        refine ⟨h, ?_⟩
        have h1' : (10000 - 1 / 2 : ℚ)
            ≤ (countCorrectChars input text : ℚ) * 10000 / (input.length : ℚ) := by
          linarith
        rw [le_div_iff₀ hL] at h1'
        have hkey : (19999 : ℚ) * (input.length : ℚ)
            ≤ 20000 * (countCorrectChars input text : ℚ) := by linarith
        exact_mod_cast hkey
      · rintro ⟨-, h2⟩
        have h2' : (19999 : ℚ) * (input.length : ℚ)
            ≤ 20000 * (countCorrectChars input text : ℚ) := by exact_mod_cast h2
        have hlow : (10000 - 1 / 2 : ℚ)
            ≤ (countCorrectChars input text : ℚ) * 10000 / (input.length : ℚ) := by
          rw [le_div_iff₀ hL]
          linarith
        have hhigh : (countCorrectChars input text : ℚ) * 10000 / (input.length : ℚ)
            ≤ 10000 := by
          rw [div_le_iff₀ hL]
          nlinarith
        constructor
        · linarith
        · linarith
    · intro habs
      exact absurd habs h

/-- Witness for C8 (amended) at the empty typed text. -/
theorem claim_C8_amended_witness :
    ([] : List Char) = [] ∧ (calculateStats ([] : List Char) [] 0 []).accuracy = 0 :=
  ⟨rfl, (claim_C8_amended [] [] 0 []).2 rfl⟩

/-! ### C2 -/

/-- C2: after every input update of an active session the session completes
exactly when the completion predicate holds, and the predicate holds exactly
when: in quote mode the typed length equals the source length; in timed mode
the elapsed seconds reach the target; in word-count mode the number of tokens
of the typed text split on the single space character reaches the target — so
with a target of 3 words, both "a b c" and "a  b" (double space: the empty
token counts) complete. -/
theorem claim_C2 :
    (∀ (mode : TestMode) (value text : List Char) (t tt : ℚ) (tw : ℕ),
      isCompleted mode value text t tt tw = true
        ↔ ((mode = TestMode.quote ∧ value.length = text.length)
          ∨ (mode = TestMode.time ∧ tt ≤ t)
          ∨ (mode = TestMode.words ∧ tw ≤ (value.splitOn ' ').length)))
    ∧ (∀ (nowMs : ℚ) (st : AppState) (value : List Char),
        st.testState = TestState.active →
        ((handleInputChange nowMs st value).testState = TestState.completed
          ↔ isCompleted st.testMode value st.testText
              ((st.currentTime - st.startTime) / 1000) st.targetTime st.targetWords = true))
    ∧ isCompleted TestMode.words ['a', ' ', 'b', ' ', 'c'] [] 0 0 3 = true
    ∧ isCompleted TestMode.words ['a', ' ', ' ', 'b'] [] 0 0 3 = true := by
  refine ⟨?_, ?_, by decide, by decide⟩
  · intro mode value text t tt tw
    simp [isCompleted, or_assoc]
  · intro nowMs st value hActive
    have hne : ¬ st.testState ≠ TestState.active := by rw [hActive]; simp
    rw [handleInputChange, if_neg hne]
    dsimp only
    by_cases hc : isCompleted st.testMode value st.testText
        ((st.currentTime - st.startTime) / 1000) st.targetTime st.targetWords = true
    · simp [hc]
    · simp only [Bool.not_eq_true] at hc
      simp [hc, hActive]

/-- Witness for C2's active-session completion equivalence at a concrete
state. -/
theorem claim_C2_witness :
    activeState.testState = TestState.active
    ∧ ((handleInputChange 0 activeState ['a']).testState = TestState.completed
        ↔ isCompleted activeState.testMode ['a'] activeState.testText
            ((activeState.currentTime - activeState.startTime) / 1000)
            activeState.targetTime activeState.targetWords = true) :=
  ⟨rfl, claim_C2.2.1 0 activeState ['a'] rfl⟩

/-! ### C6 -/

/-- C6: whenever the completion predicate fires during an active session, the
result frozen from the final stats is prepended to the history (newest at
index 0) and the history is truncated to its 20 most recent entries; when the
history already holds 20 entries the oldest entry is evicted and the length
remains 20. -/
theorem claim_C6 : ∀ (nowMs : ℚ) (st : AppState) (value : List Char),
    st.testState = TestState.active →
    isCompleted st.testMode value st.testText ((st.currentTime - st.startTime) / 1000)
        st.targetTime st.targetWords = true →
    (handleInputChange nowMs st value).testResults
        = (buildResult nowMs st value :: st.testResults).take 20
    ∧ (handleInputChange nowMs st value).testResults.length
        = min (st.testResults.length + 1) 20
    ∧ (handleInputChange nowMs st value).testResults.head?
        = some (buildResult nowMs st value)
    ∧ (st.testResults.length = 20 →
        (handleInputChange nowMs st value).testResults
            = buildResult nowMs st value :: st.testResults.dropLast
        ∧ (handleInputChange nowMs st value).testResults.length = 20) := by
  intro nowMs st value hActive hComp
  have hne : ¬ st.testState ≠ TestState.active := by rw [hActive]; simp
  have hres : (handleInputChange nowMs st value).testResults
      = (buildResult nowMs st value :: st.testResults).take 20 := by
    rw [handleInputChange, if_neg hne]
    dsimp only
    rw [if_pos hComp]
  refine ⟨hres, ?_, ?_, ?_⟩
  · rw [hres, List.length_take, List.length_cons]
    omega
  · rw [hres, show (20 : ℕ) = 19 + 1 from rfl, List.take_succ_cons]
    rfl
  · intro h20
    constructor
    · rw [hres, show (20 : ℕ) = 19 + 1 from rfl, List.take_succ_cons]
      congr 1
      rw [List.dropLast_eq_take, h20]
    · rw [hres, List.length_take, List.length_cons, h20]
      omega

/-- Witness for C6: completing a one-character quote at a concrete state. -/
theorem claim_C6_witness :
    completedInputState.testState = TestState.active
    ∧ isCompleted completedInputState.testMode ['a'] completedInputState.testText
        ((completedInputState.currentTime - completedInputState.startTime) / 1000)
        completedInputState.targetTime completedInputState.targetWords = true
    ∧ (handleInputChange 5 completedInputState ['a']).testResults
        = (buildResult 5 completedInputState ['a'] :: completedInputState.testResults).take 20 :=
  ⟨rfl, by decide, (claim_C6 5 completedInputState ['a'] rfl (by decide)).1⟩

/-! ### C7 -/

/-- Counterexample to C7 as stated: in an active session 0.5 seconds in
(elapsed time 1/2, so `floor(elapsedSeconds) = 0`, which is even but not
positive) with an empty sample history, an input update of five characters
does append a sample — `(0, 120)` — even though the claim says samples are
appended only when the floor of the elapsed seconds is positive. -/
theorem claim_C7_cex :
    (handleInputChange 0 earlyState ['a', 'a', 'a', 'a', 'a']).wpmHistory
        = [{ time := 0, wpm := 120 }]
    ∧ ¬ (0 : ℤ) < 0 := by
  have he : (earlyState.currentTime - earlyState.startTime) / 1000 = 1 / 2 := by
    norm_num [earlyState, sampleState]
  have hhist : earlyState.wpmHistory = [] := rfl
  have hfloor : ⌊(1 : ℚ) / 2⌋ = 0 := by norm_num
  constructor
  · have hnc : ¬ isCompleted earlyState.testMode ['a', 'a', 'a', 'a', 'a'] earlyState.testText
        ((earlyState.currentTime - earlyState.startTime) / 1000) earlyState.targetTime
        earlyState.targetWords = true := by
      rw [he]
      simp only [earlyState, sampleState]
      simp [isCompleted]
      norm_num
    rw [handleInputChange, if_neg (by decide)]
    dsimp only
    rw [if_neg hnc]
    dsimp only
    rw [he, hhist]
    rw [if_pos ⟨by norm_num, by rw [hfloor]; decide, by rw [hfloor]; simp⟩]
    rw [hfloor]
    simp only [List.nil_append, List.length_cons, List.length_nil]
    norm_num [jsRound]
  · decide

/-- C7 as amended: on an input update of an active session, a sample
`(floor(elapsedSeconds), round((typedLength / 5) / (elapsedSeconds / 60)))`
is appended exactly when the elapsed seconds are positive (not: their floor
is positive), the floor of the elapsed seconds is even, and that floor
differs from the time field of the last recorded sample; otherwise the
sample list is unchanged. -/
theorem claim_C7_amended : ∀ (nowMs : ℚ) (st : AppState) (value : List Char),
    st.testState = TestState.active →
    (handleInputChange nowMs st value).wpmHistory
      = (if 0 < (st.currentTime - st.startTime) / 1000
            ∧ ⌊(st.currentTime - st.startTime) / 1000⌋ % 2 = 0
            ∧ st.wpmHistory.getLast?.map WpmEntry.time
                ≠ some ⌊(st.currentTime - st.startTime) / 1000⌋ then
          st.wpmHistory
            ++ [{ time := ⌊(st.currentTime - st.startTime) / 1000⌋
                  wpm := jsRound (((value.length : ℚ) / 5)
                      / (((st.currentTime - st.startTime) / 1000) / 60)) }]
        else st.wpmHistory) := by
  intro nowMs st value hActive
  have hne : ¬ st.testState ≠ TestState.active := by rw [hActive]; simp
  rw [handleInputChange, if_neg hne]
  dsimp only
  by_cases hc : isCompleted st.testMode value st.testText
      ((st.currentTime - st.startTime) / 1000) st.targetTime st.targetWords = true
  · rw [if_pos hc]
  · rw [if_neg hc]

/-- Witness for C7 (amended) at a concrete active state. -/
theorem claim_C7_amended_witness :
    earlyState.testState = TestState.active
    ∧ (handleInputChange 0 earlyState ['a']).wpmHistory
      = (if 0 < (earlyState.currentTime - earlyState.startTime) / 1000
            ∧ ⌊(earlyState.currentTime - earlyState.startTime) / 1000⌋ % 2 = 0
            ∧ earlyState.wpmHistory.getLast?.map WpmEntry.time
                ≠ some ⌊(earlyState.currentTime - earlyState.startTime) / 1000⌋ then
          earlyState.wpmHistory
            ++ [{ time := ⌊(earlyState.currentTime - earlyState.startTime) / 1000⌋
                  wpm := jsRound ((((['a'] : List Char).length : ℚ) / 5)
                      / (((earlyState.currentTime - earlyState.startTime) / 1000) / 60)) }]
        else earlyState.wpmHistory) :=
  ⟨rfl, claim_C7_amended 0 earlyState ['a'] rfl⟩

/-! ### C9 -/

/-- Counterexample to C9 as stated: resetting an active session whose last
computed stats snapshot is non-zero leaves that snapshot in place —
`resetTest` does not clear the derived statistics. -/
theorem claim_C9_cex :
    staleStatsState.testState = TestState.active
    ∧ (resetTest staleStatsState).testState = TestState.idle
    ∧ (resetTest staleStatsState).stats = staleStatsState.stats
    ∧ staleStatsState.stats ≠ initialStats := by
  refine ⟨rfl, rfl, rfl, ?_⟩
  intro h
  have h42 := congrArg TypingStats.wpm h
  simp [staleStatsState, sampleState, initialStats] at h42

/-- C9 as amended: resetting a session (in particular an active or paused
one) returns the phase to idle, clears the typed text, the character index,
the current time and the wpm samples, and stops the tick source; the last
derived statistics snapshot (and the start time) are left unchanged rather
than cleared. -/
theorem claim_C9_amended : ∀ st : AppState,
    st.testState = TestState.active ∨ st.testState = TestState.paused →
    (resetTest st).testState = TestState.idle
    ∧ (resetTest st).userInput = []
    ∧ (resetTest st).currentCharIndex = 0
    ∧ (resetTest st).currentTime = 0
    ∧ (resetTest st).wpmHistory = []
    ∧ (resetTest st).timerRunning = false
    ∧ (resetTest st).stats = st.stats
    ∧ (resetTest st).startTime = st.startTime
    ∧ (resetTest st).testText = st.testText
    ∧ (resetTest st).testResults = st.testResults := by
  intro st _
  exact ⟨rfl, rfl, rfl, rfl, rfl, rfl, rfl, rfl, rfl, rfl⟩

/-- Witness for C9 (amended) at a concrete active state. -/
theorem claim_C9_amended_witness :
    (staleStatsState.testState = TestState.active
      ∨ staleStatsState.testState = TestState.paused)
    ∧ (resetTest staleStatsState).testState = TestState.idle
    ∧ (resetTest staleStatsState).userInput = []
    ∧ (resetTest staleStatsState).currentCharIndex = 0
    ∧ (resetTest staleStatsState).currentTime = 0
    ∧ (resetTest staleStatsState).wpmHistory = []
    ∧ (resetTest staleStatsState).timerRunning = false
    ∧ (resetTest staleStatsState).stats = staleStatsState.stats
    ∧ (resetTest staleStatsState).startTime = staleStatsState.startTime
    ∧ (resetTest staleStatsState).testText = staleStatsState.testText
    ∧ (resetTest staleStatsState).testResults = staleStatsState.testResults :=
  ⟨Or.inl rfl, claim_C9_amended staleStatsState (Or.inl rfl)⟩

/-! ### C10 -/

/-- C10: when the session phase is not active (idle, paused or completed),
an input update is a complete no-op — the state is returned unchanged, so
the typed text, sample list, stats, phase and history are all untouched, no
sample is taken, and no completion check runs. -/
theorem claim_C10 : ∀ (nowMs : ℚ) (st : AppState) (value : List Char),
    st.testState ≠ TestState.active → handleInputChange nowMs st value = st := by
  intro nowMs st value h
  rw [handleInputChange, if_pos h]

/-- Witness for C10 at a concrete idle state. -/
theorem claim_C10_witness :
    sampleState.testState ≠ TestState.active
    ∧ handleInputChange 0 sampleState ['x'] = sampleState :=
  ⟨by decide, claim_C10 0 sampleState ['x'] (by decide)⟩

end Typer
